import Mathlib

/-!
Shallow embedding of the Buffet Race foraging simulation
(`src/components/RaceSimulation.tsx`) and of its per-tick update step.
Coordinates, speeds and times are modelled as exact rationals in place of
IEEE floats; the square root and angle extractions that are not rational
are supplied as explicit oracle functions, so every definition stays
computable and the theorems quantify over the oracles.
-/

namespace ForagingTheory

/-- Three-dimensional point/vector over ℚ, embedding `THREE.Vector3`. -/
structure Vec3 where
  x : ℚ
  y : ℚ
  z : ℚ
  deriving DecidableEq

/-- Embedding of `interface Player` (RaceSimulation.tsx lines 11-20).
The `THREE.Quaternion` of the source is always built from the vertical
axis `(0,1,0)` and a single angle, so it is embedded as `heading`, the
signed rotation about the vertical axis measured in full turns (the
source stores the same datum in radians). -/
structure Player where
  id : ℕ
  position : Vec3
  heading : ℚ
  velocity : Vec3
  score : ℕ
  color : String
  isJumping : Bool
  verticalVelocity : ℚ
  deriving DecidableEq

/-- The fixed set of food shapes, from the union type
`'cube' | 'sphere' | 'triangle'` (RaceSimulation.tsx line 25). -/
inductive FoodType where
  | cube
  | sphere
  | triangle
  deriving DecidableEq

/-- Embedding of `interface FoodItem` (RaceSimulation.tsx lines 22-28). -/
structure FoodItem where
  id : ℕ
  position : Vec3
  type : FoodType
  consumed : Bool
  color : String
  deriving DecidableEq

/-- `const MAP_SIZE = 8` (RaceSimulation.tsx line 122): half-extent of the
square arena. -/
def MAP_SIZE : ℚ := 8

/-- `const gravity = -18` (RaceSimulation.tsx line 320). -/
def gravity : ℚ := -18

/-- Ground-contact height `0.5` used for every spawned player and food
item (RaceSimulation.tsx lines 338, 365). -/
def groundY : ℚ := 1/2

/-- The eight player colors (RaceSimulation.tsx lines 327-330). -/
def playerColors : List String :=
  ["#FF5733", "#33FF57", "#3357FF", "#F3FF33",
   "#FF33F3", "#33FFF3", "#F333FF", "#FFA533"]

/-- The three food shapes in source order (RaceSimulation.tsx line 355). -/
def foodTypes : List FoodType := [.cube, .sphere, .triangle]

/-- The six food colors (RaceSimulation.tsx line 356). -/
def foodColors : List String :=
  ["#FF9999", "#99FF99", "#9999FF", "#FFFF99", "#FF99FF", "#99FFFF"]

/-- Player construction (RaceSimulation.tsx lines 325-352).  `c` and `s`
are the cosine and sine oracles, taking the angle in full turns: the
source computes `angle = (i / playerCount) * 2π` and uses
`Math.cos angle`, `Math.sin angle`; here `c a` stands for `cos (2π a)`
and `s a` for `sin (2π a)`.  The quaternion
`setFromAxisAngle((0,1,0), -angle)` is embedded as `heading = -a` turns
about the vertical axis, which the spec reads as facing inward toward
the center. -/
def spawnPlayers (c s : ℚ → ℚ) (playerCount : ℕ) (mapSize : ℚ) : List Player :=
  (List.range playerCount).map fun (i : ℕ) =>
    let a : ℚ := (i : ℚ) / (playerCount : ℚ)
    let radius : ℚ := mapSize * (3/4)
    { id := i
      position := { x := c a * radius, y := groundY, z := s a * radius }
      heading := -a
      velocity := { x := 0, y := 0, z := 0 }
      score := 0
      color := playerColors.getD (i % playerColors.length) ""
      isJumping := false
      verticalVelocity := 0 }

/-- Food construction (RaceSimulation.tsx lines 353-373).  `rx i`, `rz i`,
`rt i`, `rc i` are the four `Math.random()` draws made for food item `i`
(each expected in `[0, 1)`); spawn coordinates are
`rand * (max - min) + min` with `min = -mapSize + 0.5`,
`max = mapSize - 0.5`, and shape/color indices are
`⌊rand * length⌋`. -/
def spawnFood (rx rz rt rc : ℕ → ℚ) (foodAmount : ℕ) (mapSize : ℚ) : List FoodItem :=
  (List.range foodAmount).map fun i =>
    let lo : ℚ := -mapSize + 1/2
    let hi : ℚ := mapSize - 1/2
    { id := i
      position := { x := rx i * (hi - lo) + lo, y := groundY, z := rz i * (hi - lo) + lo }
      type := foodTypes.getD (Int.toNat ⌊rt i * (foodTypes.length : ℚ)⌋) .cube
      consumed := false
      color := foodColors.getD (Int.toNat ⌊rc i * (foodColors.length : ℚ)⌋) "" }

/-- JavaScript `parseInt(v) || 1`: a failed parse (NaN) and the falsy
value `0` both become `1` (RaceSimulation.tsx lines 227, 238). -/
def jsOrOne : Option ℤ → ℤ
  | none => 1
  | some 0 => 1
  | some n => n

/-- The `onChange` handler of the player-count input
(RaceSimulation.tsx line 227):
`Math.max(1, Math.min(8, parseInt(e.target.value) || 1))`. -/
def playerCountOnChange (v : Option ℤ) : ℤ :=
  max 1 (min 8 (jsOrOne v))

/-- The `onChange` handler of the food-amount input
(RaceSimulation.tsx line 238):
`Math.max(1, Math.min(500, parseInt(e.target.value) || 1))`. -/
def foodAmountOnChange (v : Option ℤ) : ℤ :=
  max 1 (min 500 (jsOrOne v))

/-- Squared horizontal (x/z-plane) distance between two points. -/
def hDistSq (a b : Vec3) : ℚ :=
  (a.x - b.x) * (a.x - b.x) + (a.z - b.z) * (a.z - b.z)

/-- `true` when food `f` is a strictly better target than `g` for a player
standing at `pos`: strictly closer in horizontal Euclidean distance
(compared on squares, which is equivalent), or equally distant with a
strictly lower `id` (the deterministic tie-break). -/
def betterTarget (pos : Vec3) (f g : FoodItem) : Bool :=
  hDistSq pos f.position < hDistSq pos g.position ||
    (hDistSq pos f.position == hDistSq pos g.position && f.id < g.id)

/-- Modelled from the spec: the targeting step of `updateBuffetPlayers`
(source file `src/components/buffetplayers.tsx`, imported at
RaceSimulation.tsx line 7, is not under `src/`).  Spec §4.2 step 1:
among all food items not yet consumed, select the one at minimum
Euclidean distance (ignoring height) from the player, ties resolved by
lowest food `id`; `none` when no unconsumed food remains. -/
def selectTarget (pos : Vec3) (foods : List FoodItem) : Option FoodItem :=
  match foods.filter (fun f => !f.consumed) with
  | [] => none
  | f :: fs => some (fs.foldl (fun best g => if betterTarget pos g best then g else best) f)

/-- Modelled from the spec: the cosmetic jump arc of `updateBuffetPlayers`
(spec §4.2 step 3, with `gravity = -18` from RaceSimulation.tsx line
320): integrate the vertical velocity under constant downward
acceleration and clear the jump state on reaching ground height. -/
def stepJump (delta : ℚ) (p : Player) : Player :=
  if p.isJumping then
    let vv : ℚ := p.verticalVelocity + gravity * delta
    let y : ℚ := p.position.y + vv * delta
    if y ≤ groundY then
      { p with position := { p.position with y := groundY }
               isJumping := false
               verticalVelocity := 0 }
    else
      { p with position := { p.position with y := y }
               verticalVelocity := vv }
  else p

/-- Sets `consumed := true` on the food item with identifier `tid`,
leaving every other item unchanged. -/
def markConsumed (tid : ℕ) (f : FoodItem) : FoodItem :=
  if f.id = tid then { f with consumed := true } else f

/-- Modelled from the spec: one player's share of `updateBuffetPlayers`
(spec §4.2 steps 1-4; the source file is not under `src/`).  `sqrtQ` is
the square-root oracle used to normalise the direction vector (exact
square roots are not rational), `angleOf ux uz` the angle-extraction
oracle giving the heading that faces the movement direction, `speed`
the fixed shared movement speed and `radius` the fixed pickup radius.
Returns the updated player, the updated food list and the consumption
events `(player id, food id)` recorded when the player's horizontal
distance to its target falls below the pickup radius (compared on
squares).  The boundary clamp is NOT applied here: the caller
(`useFrame`, RaceSimulation.tsx lines 386-391) clamps afterwards. -/
def stepPlayer (sqrtQ : ℚ → ℚ) (angleOf : ℚ → ℚ → ℚ) (speed radius delta : ℚ)
    (foods : List FoodItem) (p : Player) : Player × List FoodItem × List (ℕ × ℕ) :=
  match selectTarget p.position foods with
  | none => (stepJump delta p, foods, [])
  | some t =>
    let dx : ℚ := t.position.x - p.position.x
    let dz : ℚ := t.position.z - p.position.z
    let d : ℚ := sqrtQ (dx * dx + dz * dz)
    let ux : ℚ := dx / d
    let uz : ℚ := dz / d
    let p1 : Player :=
      { p with position := { p.position with x := p.position.x + ux * speed * delta,
                                             z := p.position.z + uz * speed * delta }
               heading := angleOf ux uz
               velocity := { x := ux * speed, y := 0, z := uz * speed } }
    let p2 : Player := stepJump delta p1
    if hDistSq p2.position t.position < radius * radius then
      ({ p2 with score := p2.score + 1 },
       foods.map (markConsumed t.id),
       [(p.id, t.id)])
    else
      (p2, foods, [])

/-- Result of one `updateBuffetPlayers` pass: updated players, updated
food items and the ordered log of consumption events `(player id, food
id)` of the pass. -/
structure UpdateResult where
  players : List Player
  foodItems : List FoodItem
  events : List (ℕ × ℕ)
  deriving DecidableEq

/-- Modelled from the spec: `updateBuffetPlayers(players, foodItems,
delta)` (imported at RaceSimulation.tsx line 7; the defining source file
is not under `src/`).  Spec §4.2: each player is processed in order, the
consumed flag being applied before later players in the same pass read
the food state, so a food item is claimed by at most one player. -/
def updateBuffetPlayers (sqrtQ : ℚ → ℚ) (angleOf : ℚ → ℚ → ℚ) (speed radius delta : ℚ)
    (players : List Player) (foods : List FoodItem) : UpdateResult :=
  players.foldl
    (fun acc p =>
      let r := stepPlayer sqrtQ angleOf speed radius delta acc.foodItems p
      { players := acc.players ++ [r.1]
        foodItems := r.2.1
        events := acc.events ++ r.2.2 })
    { players := [], foodItems := foods, events := [] }

/-- Clamp of player positions to the map boundaries, from
RaceSimulation.tsx lines 386-391:
`p.position.x = Math.max(-mapSize, Math.min(mapSize, p.position.x))`
and likewise for `z`. -/
def clampPlayer (mapSize : ℚ) (p : Player) : Player :=
  { p with position := { p.position with x := max (-mapSize) (min mapSize p.position.x),
                                         z := max (-mapSize) (min mapSize p.position.z) } }

/-- The state owned by the `Simulation` component together with the
`scores` overlay state it publishes through `setScores`
(RaceSimulation.tsx lines 133, 318-319). -/
structure SimState where
  players : List Player
  foodItems : List FoodItem
  scores : List ℕ
  deriving DecidableEq

/-- Result of one frame callback: the next state, whether
`onFoodDepleted` was invoked during this call, and the consumption
events of this call. -/
structure FrameOutput where
  state : SimState
  foodDepletedSignal : Bool
  events : List (ℕ × ℕ)
  deriving DecidableEq

/-- The frame callback of the `Simulation` component (`useFrame`,
RaceSimulation.tsx lines 377-401): return unchanged when either entity
list is empty; when the simulation is running and not over, run
`updateBuffetPlayers`, clamp player positions to the map boundaries,
publish the updated scores and signal `onFoodDepleted` when every food
item is consumed; otherwise leave players and food unchanged and only
re-publish the scores overlay. -/
def useFrameStep (sqrtQ : ℚ → ℚ) (angleOf : ℚ → ℚ → ℚ) (speed radius : ℚ)
    (isSimulationRunning isGameOver : Bool) (mapSize delta : ℚ)
    (st : SimState) : FrameOutput :=
  if st.players.isEmpty || st.foodItems.isEmpty then
    { state := st, foodDepletedSignal := false, events := [] }
  else if isSimulationRunning && !isGameOver then
    let r := updateBuffetPlayers sqrtQ angleOf speed radius delta st.players st.foodItems
    let ps := r.players.map (clampPlayer mapSize)
    { state := { players := ps, foodItems := r.foodItems, scores := ps.map Player.score }
      foodDepletedSignal := r.foodItems.all FoodItem.consumed
      events := r.events }
  else
    { state := { st with scores := st.players.map Player.score }
      foodDepletedSignal := false
      events := [] }

/-- Per-tick inputs chosen by the shell: the `isSimulationRunning` and
`isGameOver` flags and the frame time `delta`. -/
structure TickInput where
  running : Bool
  gameOver : Bool
  delta : ℚ
  deriving DecidableEq

/-- Runs the frame callback over a whole sequence of ticks, returning
the final state and the concatenated consumption-event log. -/
def runFrames (sqrtQ : ℚ → ℚ) (angleOf : ℚ → ℚ → ℚ) (speed radius mapSize : ℚ)
    (st : SimState) : List TickInput → SimState × List (ℕ × ℕ)
  | [] => (st, [])
  | t :: ts =>
    let out := useFrameStep sqrtQ angleOf speed radius t.running t.gameOver mapSize t.delta st
    let rest := runFrames sqrtQ angleOf speed radius mapSize out.state ts
    (rest.1, out.events ++ rest.2)

/-- The list of states visited while running a sequence of ticks,
starting state included. -/
def trajectory (sqrtQ : ℚ → ℚ) (angleOf : ℚ → ℚ → ℚ) (speed radius mapSize : ℚ)
    (st : SimState) : List TickInput → List SimState
  | [] => [st]
  | t :: ts =>
    st :: trajectory sqrtQ angleOf speed radius mapSize
      (useFrameStep sqrtQ angleOf speed radius t.running t.gameOver mapSize t.delta st).state ts

/-- The freshly constructed world of a `Simulation` mount: the players
and food of the construction effect (RaceSimulation.tsx lines 324-374)
and the zeroed scores overlay set by `startSimulation`
(RaceSimulation.tsx line 178). -/
def initialSim (c s : ℚ → ℚ) (rx rz rt rc : ℕ → ℚ)
    (playerCount foodAmount : ℕ) (mapSize : ℚ) : SimState :=
  { players := spawnPlayers c s playerCount mapSize
    foodItems := spawnFood rx rz rt rc foodAmount mapSize
    scores := List.replicate playerCount 0 }

/-- The state of the enclosing `RaceSimulation` component: configuration
inputs, timer and game flags, plus the mounted `Simulation` world. -/
structure ShellState where
  playerCount : ℕ
  foodAmount : ℕ
  timeLeft : ℕ
  isGameOver : Bool
  isSimulationRunning : Bool
  sim : SimState
  deriving DecidableEq

/-- `startSimulation` (RaceSimulation.tsx lines 177-182): zero the
scores overlay, reset the timer, clear `isGameOver` and set
`isSimulationRunning`.  The `Simulation` component's construction effect
(lines 324-374) has dependency list `[playerCount, foodAmount,
mapSize]`; none of these change here and the canvas stays mounted
across a game-over screen (it renders while `isSimulationRunning ||
isGameOver`, line 278), so the effect does not re-run and `sim.players`
and `sim.foodItems` are left untouched. -/
def startSimulation (st : ShellState) : ShellState :=
  { st with sim := { st.sim with scores := List.replicate st.playerCount 0 }
            timeLeft := 60
            isGameOver := false
            isSimulationRunning := true }

/-- `handlePlayAgain` (RaceSimulation.tsx lines 184-186) just invokes
`startSimulation`. -/
def handlePlayAgain (st : ShellState) : ShellState :=
  startSimulation st

/-! ### Concrete fixtures used by witnesses and counterexamples -/

/-- Square-root oracle used in concrete runs (its value is irrelevant to
the properties below, which hold for every oracle). -/
def sqrtOracle0 : ℚ → ℚ := fun _ => 0

/-- Angle-extraction oracle used in concrete runs. -/
def angleOracle0 : ℚ → ℚ → ℚ := fun _ _ => 0

/-- Fallback player for positional lookups. -/
def defaultPlayer : Player :=
  { id := 0, position := ⟨0, 0, 0⟩, heading := 0, velocity := ⟨0, 0, 0⟩,
    score := 0, color := "", isJumping := false, verticalVelocity := 0 }

/-- A player standing at the arena origin. -/
def originPlayer : Player :=
  { id := 0, position := ⟨0, 1/2, 0⟩, heading := 0, velocity := ⟨0, 0, 0⟩,
    score := 0, color := "#FF5733", isJumping := false, verticalVelocity := 0 }

/-- An unconsumed food item lying at the arena origin. -/
def originFood : FoodItem :=
  { id := 0, position := ⟨0, 1/2, 0⟩, type := .cube, consumed := false, color := "#FF9999" }

/-- World with one player standing exactly on one unconsumed food item. -/
def touchState : SimState :=
  { players := [originPlayer], foodItems := [originFood], scores := [0] }

/-- World with one player and an empty food list (`foodCount = 0`). -/
def noFoodState : SimState :=
  { players := [originPlayer], foodItems := [], scores := [0] }

/-- World left over from a finished run: one player with score 5, its
single food item consumed. -/
def staleSim : SimState :=
  { players := [{ originPlayer with score := 5 }]
    foodItems := [{ originFood with consumed := true }]
    scores := [5] }

/-- Shell state right after a game over, with the stale world of the
finished run still mounted. -/
def staleShell : ShellState :=
  { playerCount := 1, foodAmount := 1, timeLeft := 0, isGameOver := true,
    isSimulationRunning := false, sim := staleSim }

/-- Empty world (both entity lists empty, as before the construction
effect has committed) with a stale nonempty scores overlay. -/
def emptyStaleState : SimState :=
  { players := [], foodItems := [], scores := [5] }

/-- The fraction of a full turn at which player `i` of `pc` spawns:
the source computes `angle = (i / playerCount) * 2π`. -/
def spawnAngle (i pc : ℕ) : ℚ := (i : ℚ) / (pc : ℚ)

/-- The single food item spawned by the all-zero random stream on the
standard arena. -/
def witnessFood : FoodItem :=
  { id := 0, position := ⟨-15/2, 1/2, -15/2⟩, type := .cube, consumed := false,
    color := "#FF9999" }

/-- Both horizontal coordinates of a player lie in `[-m, m]`. -/
def inBounds (m : ℚ) (p : Player) : Prop :=
  -m ≤ p.position.x ∧ p.position.x ≤ m ∧ -m ≤ p.position.z ∧ p.position.z ≤ m

/-- The states reachable in a run: the freshly constructed world (for
any player/food counts) and everything the frame callback produces from
a reachable state under any flags and any `delta`. -/
inductive Reachable (sqrtQ : ℚ → ℚ) (angleOf : ℚ → ℚ → ℚ) (c s : ℚ → ℚ)
    (rx rz rt rc : ℕ → ℚ) (speed radius mapSize : ℚ) : SimState → Prop
  | init (pc fa : ℕ) :
      Reachable sqrtQ angleOf c s rx rz rt rc speed radius mapSize
        (initialSim c s rx rz rt rc pc fa mapSize)
  | step (t : TickInput) (st : SimState) :
      Reachable sqrtQ angleOf c s rx rz rt rc speed radius mapSize st →
      Reachable sqrtQ angleOf c s rx rz rt rc speed radius mapSize
        (useFrameStep sqrtQ angleOf speed radius t.running t.gameOver mapSize t.delta st).state

/-- The player spawned at index 0 of 1 with the constant `(1, 0)`
trigonometric oracle on the standard arena. -/
def witnessSpawnPlayer : Player :=
  { id := 0, position := ⟨6, 1/2, 0⟩, heading := 0, velocity := ⟨0, 0, 0⟩,
    score := 0, color := "#FF5733", isJumping := false, verticalVelocity := 0 }

/-! ### Specification-side helper definitions for the proofs -/

/-- One-step evolution order on food items: the identifier is preserved
and the consumed flag can only go from `false` to `true`. -/
def FoodLe (f g : FoodItem) : Prop :=
  g.id = f.id ∧ (f.consumed = true → g.consumed = true)

/-- Pointwise evolution order on food lists. -/
def FoodsLe (l l' : List FoodItem) : Prop :=
  List.Forall₂ FoodLe l l'

/-- The consumed flag of the first food item carrying identifier `fid`,
`none` when no such item exists. -/
def findC : List FoodItem → ℕ → Option Bool
  | [], _ => none
  | f :: l, fid => if f.id = fid then some f.consumed else findC l fid

/-- Invariant tying an update pass's output to the food list it started
from: food evolves monotonically, the logged consumption events name
pairwise-distinct food items, and each named item was unconsumed at the
start of the pass and consumed at its end. -/
def FoodsInv (foods : List FoodItem) (r : UpdateResult) : Prop :=
  FoodsLe foods r.foodItems ∧
  ((r.events.map Prod.snd).Nodup) ∧
  (∀ e ∈ r.events, findC foods e.2 = some false) ∧
  (∀ e ∈ r.events, findC r.foodItems e.2 = some true)

/-! ### C1 — all-food-consumed signal with `foodCount = 0` -/

/-- C1 counterexample: on a world whose food list is empty, the very
first frame callback does NOT report `allFoodConsumed = true` — the
early return at RaceSimulation.tsx line 378 fires before the depletion
check, so the signal stays `false` and the world is unchanged. -/
theorem c1_counterexample :
    (useFrameStep sqrtOracle0 angleOracle0 1 1 true false 8 (1/60) noFoodState).foodDepletedSignal
      = false ∧
    (useFrameStep sqrtOracle0 angleOracle0 1 1 true false 8 (1/60) noFoodState).state
      = noFoodState := by
  constructor <;> norm_num [useFrameStep, noFoodState]

/-- C1 (amended): with `foodCount = 0` every invocation of the frame
callback returns early, leaving the world unchanged, reporting no
all-food-consumed signal and recording no consumption events — so
player scores indeed never change, but `allFoodConsumed` is never
reported either. -/
theorem c1_empty_food_early_return (sqrtQ : ℚ → ℚ) (angleOf : ℚ → ℚ → ℚ)
    (speed radius : ℚ) (running gameOver : Bool) (mapSize delta : ℚ)
    (st : SimState) (h : st.foodItems = []) :
    useFrameStep sqrtQ angleOf speed radius running gameOver mapSize delta st
      = { state := st, foodDepletedSignal := false, events := [] } := by
  simp [useFrameStep, h]

/-- C1 witness: the amended theorem applied to the concrete no-food
world at the first tick. -/
theorem c1_witness :
    useFrameStep sqrtOracle0 angleOracle0 1 1 true false 8 (1/60) noFoodState
      = { state := noFoodState, foodDepletedSignal := false, events := [] } :=
  c1_empty_food_early_return sqrtOracle0 angleOracle0 1 1 true false 8 (1/60) noFoodState rfl

/-! ### C2 — fresh world on every restart -/

/-- C2 (code bug): restarting after a game over with unchanged
`playerCount`, `foodAmount` and `mapSize` does NOT construct a fresh
world.  `handlePlayAgain` only resets the overlay, the timer and the
flags; the construction effect's dependency list is unchanged, so the
previous run's players (score 5) and food items (consumed) survive into
the new run, contradicting the documented lifecycle — the zeroed
overlay is even out of sync with the surviving player scores. -/
theorem c2_stale_world_on_restart :
    (handlePlayAgain staleShell).sim.players.map Player.score = [5] ∧
    (handlePlayAgain staleShell).sim.foodItems.map FoodItem.consumed = [true] ∧
    (handlePlayAgain staleShell).sim.scores = [0] ∧
    (handlePlayAgain staleShell).isSimulationRunning = true ∧
    (handlePlayAgain staleShell).isGameOver = false := by
  refine ⟨?_, ?_, ?_, ?_, ?_⟩ <;>
    norm_num [handlePlayAgain, startSimulation, staleShell, staleSim, originPlayer, originFood]

/-! ### C3 — configuration bounds are clamped, not rejected -/

/-- C3 counterexample: an out-of-bounds requested configuration is NOT
rejected with an error — the `onChange` handlers silently clamp it into
range (0 and 99 players become 1 and 8; 501 and -3 food become 500 and
1; a failed parse becomes 1), exactly the behavior the claim denies. -/
theorem c3_counterexample :
    playerCountOnChange (some 0) = 1 ∧
    playerCountOnChange (some 99) = 8 ∧
    foodAmountOnChange (some 501) = 500 ∧
    foodAmountOnChange (some (-3)) = 1 ∧
    playerCountOnChange none = 1 := by
  decide

/-- C3 (amended): every requested player count is silently clamped into
`[1, 8]` and every requested food count into `[1, 500]`; `mapSize` is
the fixed positive constant 8 and is never validated; no
InvalidConfiguration error exists anywhere in the program. -/
theorem c3_inputs_clamped (v w : Option ℤ) :
    1 ≤ playerCountOnChange v ∧ playerCountOnChange v ≤ 8 ∧
    1 ≤ foodAmountOnChange w ∧ foodAmountOnChange w ≤ 500 ∧
    0 < MAP_SIZE := by
  refine ⟨?_, ?_, ?_, ?_, by norm_num [MAP_SIZE]⟩ <;>
    simp [playerCountOnChange, foodAmountOnChange]

/-! ### C4 — degenerate `delta` ticks -/

/-- The jump arc only ever touches the vertical coordinate: `x` is
preserved. -/
theorem stepJump_position_x (delta : ℚ) (p : Player) :
    (stepJump delta p).position.x = p.position.x := by
  simp only [stepJump]
  split_ifs <;> rfl

/-- The jump arc only ever touches the vertical coordinate: `z` is
preserved. -/
theorem stepJump_position_z (delta : ℚ) (p : Player) :
    (stepJump delta p).position.z = p.position.z := by
  simp only [stepJump]
  split_ifs <;> rfl

/-- At a zero time increment the per-player step leaves the horizontal
position unchanged: the movement displacement is scaled by `delta = 0`
and the jump arc integrates by `0`. -/
theorem stepPlayer_horiz_at_zero (sqrtQ : ℚ → ℚ) (angleOf : ℚ → ℚ → ℚ)
    (speed radius : ℚ) (foods : List FoodItem) (p : Player) :
    (stepPlayer sqrtQ angleOf speed radius 0 foods p).1.position.x = p.position.x ∧
    (stepPlayer sqrtQ angleOf speed radius 0 foods p).1.position.z = p.position.z := by
  cases h : selectTarget p.position foods with
  | none =>
    simp only [stepPlayer, h]
    simp [stepJump_position_x, stepJump_position_z]
  | some t =>
    simp only [stepPlayer, h]
    constructor <;> (split <;> simp [stepJump_position_x, stepJump_position_z])

/-- C4 counterexample: a tick with `delta = 0` is NOT a no-op.  On a
world where a player already stands within the pickup radius of an
unconsumed food item, the zero-delta tick still runs targeting and
consumption: the food becomes consumed and the player's score rises
from 0 to 1, so the resulting world differs from the input world. -/
theorem c4_counterexample :
    (useFrameStep sqrtOracle0 angleOracle0 1 1 true false 8 0 touchState).state.players.map
        Player.score = [1] ∧
    (useFrameStep sqrtOracle0 angleOracle0 1 1 true false 8 0 touchState).state.foodItems.map
        FoodItem.consumed = [true] ∧
    touchState.players.map Player.score = [0] ∧
    touchState.foodItems.map FoodItem.consumed = [false] := by
  refine ⟨?_, ?_, ?_, ?_⟩ <;>
    norm_num [useFrameStep, updateBuffetPlayers, stepPlayer, selectTarget, betterTarget,
      hDistSq, stepJump, markConsumed, clampPlayer, touchState, originPlayer, originFood,
      sqrtOracle0, angleOracle0]

/-- C4 (amended): a degenerate `delta` is not special-cased — the update
runs unconditionally and never raises an error (it is a total
function).  At `delta = 0` every player's horizontal position is
unchanged, but targeting, heading updates and consumption still apply,
so the world can change (see the counterexample); a negative `delta`
likewise flows into the movement term unchecked.  (A non-finite `delta`
has no counterpart in this exact-rational embedding.) -/
theorem c4_zero_delta_keeps_positions (sqrtQ : ℚ → ℚ) (angleOf : ℚ → ℚ → ℚ)
    (speed radius : ℚ) (players : List Player) (foods : List FoodItem) :
    (updateBuffetPlayers sqrtQ angleOf speed radius 0 players foods).players.map
        (fun p => (p.position.x, p.position.z))
      = players.map (fun p => (p.position.x, p.position.z)) := by
  suffices h : ∀ (ps : List Player) (acc : UpdateResult),
      ((ps.foldl
          (fun acc p =>
            let r := stepPlayer sqrtQ angleOf speed radius 0 acc.foodItems p
            { players := acc.players ++ [r.1]
              foodItems := r.2.1
              events := acc.events ++ r.2.2 })
          acc).players).map (fun p => (p.position.x, p.position.z))
        = acc.players.map (fun p => (p.position.x, p.position.z))
            ++ ps.map (fun p => (p.position.x, p.position.z)) by
    simpa [updateBuffetPlayers] using h players { players := [], foodItems := foods, events := [] }
  intro ps
  induction ps with
  | nil => intro acc; simp
  | cons p ps ih =>
    intro acc
    rw [List.foldl_cons, ih]
    have hx := (stepPlayer_horiz_at_zero sqrtQ angleOf speed radius acc.foodItems p).1
    have hz := (stepPlayer_horiz_at_zero sqrtQ angleOf speed radius acc.foodItems p).2
    simp [hx, hz]

/-! ### C10 — idle frames (not running or game over) -/

/-- C10 counterexample: on a frame where the simulation is not running
but the entity lists are empty (as before the construction effect has
committed), the callback returns before the overlay update, so the
score overlay is NOT re-published from the current player scores: a
stale overlay `[5]` survives while the player list maps to `[]`. -/
theorem c10_counterexample :
    (useFrameStep sqrtOracle0 angleOracle0 1 1 false false 8 1 emptyStaleState).state.scores
      = [5] ∧
    (useFrameStep sqrtOracle0 angleOracle0 1 1 false false 8 1 emptyStaleState).state.scores
      ≠ (useFrameStep sqrtOracle0 angleOracle0 1 1 false false 8 1
          emptyStaleState).state.players.map Player.score := by
  constructor <;> norm_num [useFrameStep, emptyStaleState]

/-- C10 (amended): on every frame with the simulation not running or the
game over, players and food items are left unchanged, no depletion
signal fires and no consumption event occurs; the score overlay is
re-published from the (unchanged) player scores provided both entity
lists are nonempty — when either list is empty the callback instead
returns with the whole state (overlay included) untouched. -/
theorem c10_idle_frame_no_mutation (sqrtQ : ℚ → ℚ) (angleOf : ℚ → ℚ → ℚ)
    (speed radius : ℚ) (running gameOver : Bool) (mapSize delta : ℚ) (st : SimState)
    (h : running = false ∨ gameOver = true) :
    (useFrameStep sqrtQ angleOf speed radius running gameOver mapSize delta st).state.players
        = st.players ∧
    (useFrameStep sqrtQ angleOf speed radius running gameOver mapSize delta st).state.foodItems
        = st.foodItems ∧
    (useFrameStep sqrtQ angleOf speed radius running gameOver mapSize delta
        st).foodDepletedSignal = false ∧
    (useFrameStep sqrtQ angleOf speed radius running gameOver mapSize delta st).events = [] ∧
    (st.players ≠ [] → st.foodItems ≠ [] →
      (useFrameStep sqrtQ angleOf speed radius running gameOver mapSize delta st).state.scores
        = st.players.map Player.score) ∧
    (st.players = [] ∨ st.foodItems = [] →
      useFrameStep sqrtQ angleOf speed radius running gameOver mapSize delta st
        = { state := st, foodDepletedSignal := false, events := [] }) := by
  have hflag : (running && !gameOver) = false := by
    rcases h with h | h <;> simp [h]
  by_cases hempty : st.players.isEmpty || st.foodItems.isEmpty
  · have hor : st.players = [] ∨ st.foodItems = [] := by
      rcases Bool.or_eq_true_iff.mp hempty with h' | h' <;>
        [exact Or.inl (List.isEmpty_iff.mp h'); exact Or.inr (List.isEmpty_iff.mp h')]
    refine ⟨?_, ?_, ?_, ?_, ?_, ?_⟩ <;> simp [useFrameStep, hempty]
    · intro hp hf
      rcases hor with h' | h' <;> simp_all
  · refine ⟨?_, ?_, ?_, ?_, ?_, ?_⟩ <;> simp [useFrameStep, hempty, hflag]
    intro hor
    rcases hor with h' | h' <;> simp_all

/-- C10 witness: the amended theorem applied to a concrete game-over
frame on a nonempty world. -/
theorem c10_witness :
    (useFrameStep sqrtOracle0 angleOracle0 1 1 false true 8 1 touchState).state.players
        = touchState.players ∧
    (useFrameStep sqrtOracle0 angleOracle0 1 1 false true 8 1 touchState).state.foodItems
        = touchState.foodItems ∧
    (useFrameStep sqrtOracle0 angleOracle0 1 1 false true 8 1 touchState).state.scores
        = touchState.players.map Player.score := by
  have h := c10_idle_frame_no_mutation sqrtOracle0 angleOracle0 1 1 false true 8 1 touchState
    (Or.inr rfl)
  exact ⟨h.1, h.2.1, h.2.2.2.2.1 (by norm_num [touchState]) (by norm_num [touchState])⟩

/-! ### C9 — determinism of the update step -/

/-- C9 confirmed: the frame step is a pure function of the starting
world and the tick inputs — two executions from identical starting
states over identical `delta` sequences (and the same oracles and
constants) visit identical states at every tick, hence identical player
positions, headings, scores and food consumed flags; the only
randomness in the program is the `Math.random` family used at
construction time. -/
theorem c9_update_deterministic (sqrtQ : ℚ → ℚ) (angleOf : ℚ → ℚ → ℚ)
    (speed radius mapSize : ℚ) (s1 s2 : SimState) (ts1 ts2 : List TickInput)
    (hs : s1 = s2) (ht : ts1 = ts2) :
    trajectory sqrtQ angleOf speed radius mapSize s1 ts1
      = trajectory sqrtQ angleOf speed radius mapSize s2 ts2 := by
  subst hs
  subst ht
  rfl

/-- C9 witness: determinism applied to a concrete one-tick run. -/
theorem c9_witness :
    trajectory sqrtOracle0 angleOracle0 1 1 8 touchState [⟨true, false, 1/60⟩]
      = trajectory sqrtOracle0 angleOracle0 1 1 8 touchState [⟨true, false, 1/60⟩] :=
  c9_update_deterministic sqrtOracle0 angleOracle0 1 1 8 touchState touchState
    [⟨true, false, 1/60⟩] [⟨true, false, 1/60⟩] rfl rfl

/-! ### C6 — player spawn rule -/

/-- Indexing the fixed shape list always lands inside it (out-of-range
indices fall back to the default `cube`, which is itself in the set). -/
theorem foodTypes_getD_mem (k : ℕ) : foodTypes.getD k FoodType.cube ∈ foodTypes := by
  match k with
  | 0 => decide
  | 1 => decide
  | 2 => decide
  | (n + 3) =>
    have h : foodTypes.length ≤ n + 3 := by simp [foodTypes]
    rw [List.getD_eq_default _ _ h]
    decide

/-- C6 confirmed: at construction, player `i` (for `i < playerCount`) has
`id = i`, score 0, zero velocity, ground height, heading the rotation by
`-(i / playerCount)` of a full turn about the vertical axis (the source's
`setFromAxisAngle((0,1,0), -angle)`, which the spec reads as facing
inward), and position `(cos(2π·a)·r, sin(2π·a)·r)` horizontally with
`a = i / playerCount` and `r = 0.75 * mapSize` — hence on the circle of
radius `0.75 * mapSize` centered on the origin, given the Pythagorean
identity for the trigonometric oracle at that angle. -/
theorem c6_spawn_on_circle (c s : ℚ → ℚ) (pc : ℕ) (m : ℚ) (i : ℕ) (hi : i < pc)
    (hcs : c (spawnAngle i pc) * c (spawnAngle i pc)
         + s (spawnAngle i pc) * s (spawnAngle i pc) = 1) :
    (spawnPlayers c s pc m).length = pc ∧
    ((spawnPlayers c s pc m).getD i defaultPlayer).id = i ∧
    ((spawnPlayers c s pc m).getD i defaultPlayer).score = 0 ∧
    ((spawnPlayers c s pc m).getD i defaultPlayer).velocity = ⟨0, 0, 0⟩ ∧
    ((spawnPlayers c s pc m).getD i defaultPlayer).heading = -(spawnAngle i pc) ∧
    ((spawnPlayers c s pc m).getD i defaultPlayer).position.y = 1/2 ∧
    ((spawnPlayers c s pc m).getD i defaultPlayer).position.x
      = c (spawnAngle i pc) * (m * (3/4)) ∧
    ((spawnPlayers c s pc m).getD i defaultPlayer).position.z
      = s (spawnAngle i pc) * (m * (3/4)) ∧
    ((spawnPlayers c s pc m).getD i defaultPlayer).position.x
        * ((spawnPlayers c s pc m).getD i defaultPlayer).position.x
      + ((spawnPlayers c s pc m).getD i defaultPlayer).position.z
        * ((spawnPlayers c s pc m).getD i defaultPlayer).position.z
      = (m * (3/4)) * (m * (3/4)) := by
  have hget : (spawnPlayers c s pc m).getD i defaultPlayer
      = { id := i
          position := { x := c (spawnAngle i pc) * (m * (3/4)), y := groundY,
                        z := s (spawnAngle i pc) * (m * (3/4)) }
          heading := -(spawnAngle i pc)
          velocity := { x := 0, y := 0, z := 0 }
          score := 0
          color := playerColors.getD (i % playerColors.length) ""
          isJumping := false
          verticalVelocity := 0 } := by
    simp [spawnPlayers, List.getD, List.getElem?_map, List.getElem?_range hi, spawnAngle]
  rw [hget]
  refine ⟨by simp [spawnPlayers], rfl, rfl, rfl, rfl, rfl, rfl, rfl, ?_⟩
  show c (spawnAngle i pc) * (m * (3/4)) * (c (spawnAngle i pc) * (m * (3/4)))
      + s (spawnAngle i pc) * (m * (3/4)) * (s (spawnAngle i pc) * (m * (3/4)))
      = (m * (3/4)) * (m * (3/4))
  linear_combination (m * (3/4)) * (m * (3/4)) * hcs

/-- C6 witness: the spawn theorem applied to one player on the standard
arena, with the trigonometric oracle constant `(1, 0)`. -/
theorem c6_witness :
    (spawnPlayers (fun _ => 1) (fun _ => 0) 1 8).length = 1 ∧
    ((spawnPlayers (fun _ => 1) (fun _ => 0) 1 8).getD 0 defaultPlayer).score = 0 ∧
    ((spawnPlayers (fun _ => 1) (fun _ => 0) 1 8).getD 0 defaultPlayer).position.x
        * ((spawnPlayers (fun _ => 1) (fun _ => 0) 1 8).getD 0 defaultPlayer).position.x
      + ((spawnPlayers (fun _ => 1) (fun _ => 0) 1 8).getD 0 defaultPlayer).position.z
        * ((spawnPlayers (fun _ => 1) (fun _ => 0) 1 8).getD 0 defaultPlayer).position.z
      = ((8:ℚ) * (3/4)) * ((8:ℚ) * (3/4)) := by
  have h := c6_spawn_on_circle (fun _ => 1) (fun _ => 0) 1 8 0 (by norm_num) (by norm_num)
  exact ⟨h.1, h.2.2.1, h.2.2.2.2.2.2.2.2⟩

/-! ### C7 — food spawn rule -/

/-- C7 confirmed: when the random draws lie in `[0, 1)` (as
`Math.random()` guarantees) and the arena is at least as wide as the
margin, every spawned food item lies within
`[-mapSize + 1/2, mapSize - 1/2]` on both horizontal axes (margin 1/2 is
positive), sits at the shared ground height `1/2`, carries a shape from
the fixed three-element set and starts unconsumed. -/
theorem c7_spawn_food_in_bounds (rx rz rt rc : ℕ → ℚ) (fa : ℕ) (m : ℚ) (hm : 1/2 ≤ m)
    (hx0 : ∀ i, 0 ≤ rx i) (hx1 : ∀ i, rx i < 1)
    (hz0 : ∀ i, 0 ≤ rz i) (hz1 : ∀ i, rz i < 1)
    (f : FoodItem) (hf : f ∈ spawnFood rx rz rt rc fa m) :
    (-m + 1/2 ≤ f.position.x ∧ f.position.x ≤ m - 1/2) ∧
    (-m + 1/2 ≤ f.position.z ∧ f.position.z ≤ m - 1/2) ∧
    f.position.y = 1/2 ∧
    f.type ∈ foodTypes ∧
    f.consumed = false := by
  simp only [spawnFood, List.mem_map, List.mem_range] at hf
  obtain ⟨i, hi, rfl⟩ := hf
  refine ⟨⟨?_, ?_⟩, ⟨?_, ?_⟩, by norm_num [groundY], foodTypes_getD_mem _, rfl⟩
  · nlinarith [hx0 i, hx1 i]
  · nlinarith [hx0 i, hx1 i]
  · nlinarith [hz0 i, hz1 i]
  · nlinarith [hz0 i, hz1 i]

/-- C7 witness: the spawn theorem applied to the concrete item produced
by the all-zero random stream. -/
theorem c7_witness :
    (-(8:ℚ) + 1/2 ≤ witnessFood.position.x ∧ witnessFood.position.x ≤ (8:ℚ) - 1/2) ∧
    (-(8:ℚ) + 1/2 ≤ witnessFood.position.z ∧ witnessFood.position.z ≤ (8:ℚ) - 1/2) ∧
    witnessFood.position.y = 1/2 ∧
    witnessFood.type ∈ foodTypes ∧
    witnessFood.consumed = false :=
  c7_spawn_food_in_bounds (fun _ => 0) (fun _ => 0) (fun _ => 0) (fun _ => 0) 1 8 (by norm_num)
    (fun _ => le_refl 0) (fun _ => by norm_num)
    (fun _ => le_refl 0) (fun _ => by norm_num)
    witnessFood
    (by norm_num [spawnFood, witnessFood, foodTypes, foodColors, groundY,
      List.mem_map, List.mem_range])

/-! ### C5 — boundary invariant -/

/-- The boundary clamp of the frame callback lands inside the arena for
any input position, provided the half-extent is nonnegative. -/
theorem clampPlayer_inBounds (m : ℚ) (hm : 0 ≤ m) (p : Player) :
    inBounds m (clampPlayer m p) := by
  refine ⟨?_, ?_, ?_, ?_⟩
  · show -m ≤ max (-m) (min m p.position.x)
    exact le_max_left _ _
  · show max (-m) (min m p.position.x) ≤ m
    exact max_le (by linarith) (min_le_left _ _)
  · show -m ≤ max (-m) (min m p.position.z)
    exact le_max_left _ _
  · show max (-m) (min m p.position.z) ≤ m
    exact max_le (by linarith) (min_le_left _ _)

/-- C5 confirmed: in every reachable world state (the spawn state and
every state the frame callback produces from it, running or not),
every player's `position.x` and `position.z` lie within
`[-mapSize, mapSize]`: the spawn circle of radius `0.75 * mapSize` is
inside the arena when the trigonometric oracle is bounded by 1, and
every running tick ends with the boundary clamp. -/
theorem c5_boundary_invariant (sqrtQ : ℚ → ℚ) (angleOf : ℚ → ℚ → ℚ) (c s : ℚ → ℚ)
    (rx rz rt rc : ℕ → ℚ) (speed radius m : ℚ) (hm : 0 ≤ m)
    (hc1 : ∀ a, -1 ≤ c a) (hc2 : ∀ a, c a ≤ 1)
    (hs1 : ∀ a, -1 ≤ s a) (hs2 : ∀ a, s a ≤ 1)
    (st : SimState) (hr : Reachable sqrtQ angleOf c s rx rz rt rc speed radius m st) :
    ∀ p ∈ st.players, inBounds m p := by
  induction hr with
  | init pc fa =>
    intro p hp
    simp only [initialSim, spawnPlayers, List.mem_map, List.mem_range] at hp
    obtain ⟨i, hi, rfl⟩ := hp
    have h1 := hc1 ((i : ℚ) / (pc : ℚ))
    have h2 := hc2 ((i : ℚ) / (pc : ℚ))
    have h3 := hs1 ((i : ℚ) / (pc : ℚ))
    have h4 := hs2 ((i : ℚ) / (pc : ℚ))
    refine ⟨?_, ?_, ?_, ?_⟩
    · show -m ≤ c ((i : ℚ) / (pc : ℚ)) * (m * (3/4))
      nlinarith
    · show c ((i : ℚ) / (pc : ℚ)) * (m * (3/4)) ≤ m
      nlinarith
    · show -m ≤ s ((i : ℚ) / (pc : ℚ)) * (m * (3/4))
      nlinarith
    · show s ((i : ℚ) / (pc : ℚ)) * (m * (3/4)) ≤ m
      nlinarith
  | step t st hr ih =>
    intro p hp
    simp only [useFrameStep] at hp
    by_cases he : st.players.isEmpty || st.foodItems.isEmpty
    · rw [if_pos he] at hp
      exact ih p hp
    · rw [if_neg he] at hp
      by_cases hrun : (t.running && !t.gameOver) = true
      · rw [if_pos hrun] at hp
        simp only [List.mem_map] at hp
        obtain ⟨q, hq, rfl⟩ := hp
        exact clampPlayer_inBounds m hm q
      · rw [if_neg hrun] at hp
        exact ih p hp

/-- C5 witness: the boundary invariant applied to the concrete spawn
state of a one-player, one-food run on the standard arena. -/
theorem c5_witness : inBounds 8 witnessSpawnPlayer :=
  c5_boundary_invariant sqrtOracle0 angleOracle0 (fun _ => 1) (fun _ => 0)
    (fun _ => 0) (fun _ => 0) (fun _ => 0) (fun _ => 0) 1 1 8 (by norm_num)
    (fun _ => by norm_num) (fun _ => by norm_num)
    (fun _ => by norm_num) (fun _ => by norm_num)
    (initialSim (fun _ => 1) (fun _ => 0) (fun _ => 0) (fun _ => 0) (fun _ => 0) (fun _ => 0)
      1 1 8)
    (Reachable.init 1 1)
    witnessSpawnPlayer
    (by norm_num [initialSim, spawnPlayers, witnessSpawnPlayer, playerColors, groundY])

/-! ### C8 — single-claim consumption -/

/-- `FoodLe` is reflexive. -/
theorem foodLe_refl (f : FoodItem) : FoodLe f f :=
  ⟨rfl, fun h => h⟩

/-- `FoodLe` is transitive. -/
theorem foodLe_trans {f g h : FoodItem} (h1 : FoodLe f g) (h2 : FoodLe g h) : FoodLe f h :=
  ⟨h2.1.trans h1.1, fun hc => h2.2 (h1.2 hc)⟩

/-- `FoodsLe` is reflexive. -/
theorem foodsLe_refl (l : List FoodItem) : FoodsLe l l := by
  induction l with
  | nil => exact List.Forall₂.nil
  | cons f l ih => exact List.Forall₂.cons (foodLe_refl f) ih

/-- `FoodsLe` is transitive. -/
theorem foodsLe_trans {l1 l2 l3 : List FoodItem} (h1 : FoodsLe l1 l2) (h2 : FoodsLe l2 l3) :
    FoodsLe l1 l3 := by
  induction h1 generalizing l3 with
  | nil => cases h2; exact List.Forall₂.nil
  | cons hfg htail ih =>
    cases h2 with
    | cons hgh htail2 => exact List.Forall₂.cons (foodLe_trans hfg hgh) (ih htail2)

/-- A consumed flag found `true` stays `true` along `FoodsLe`. -/
theorem foodsLe_findC_true {l l' : List FoodItem} (h : FoodsLe l l') (fid : ℕ)
    (hc : findC l fid = some true) : findC l' fid = some true := by
  induction h with
  | nil => simp [findC] at hc
  | cons hfg htail ih =>
    rename_i f g l₁ l₂
    by_cases hid : f.id = fid
    · have hid' : g.id = fid := hfg.1.trans hid
      simp only [findC, if_pos hid, Option.some.injEq] at hc
      simp only [findC, if_pos hid', Option.some.injEq]
      exact hfg.2 hc
    · have hid' : ¬g.id = fid := fun hg => hid (hfg.1 ▸ hg)
      simp only [findC, if_neg hid] at hc
      simp only [findC, if_neg hid']
      exact ih hc

/-- Lookup failure is invariant along `FoodsLe` (identifiers are
preserved pointwise). -/
theorem foodsLe_findC_none {l l' : List FoodItem} (h : FoodsLe l l') (fid : ℕ) :
    findC l fid = none ↔ findC l' fid = none := by
  induction h with
  | nil => simp [findC]
  | cons hfg htail ih =>
    rename_i f g l₁ l₂
    by_cases hid : f.id = fid
    · have hid' : g.id = fid := hfg.1.trans hid
      simp [findC, if_pos hid, if_pos hid']
    · have hid' : ¬g.id = fid := fun hg => hid (hfg.1 ▸ hg)
      simp only [findC, if_neg hid, if_neg hid']
      exact ih

/-- A consumed flag found `false` after an evolution was already `false`
before it. -/
theorem foodsLe_findC_false_rev {l l' : List FoodItem} (h : FoodsLe l l') (fid : ℕ)
    (hc : findC l' fid = some false) : findC l fid = some false := by
  cases hv : findC l fid with
  | none =>
    rw [(foodsLe_findC_none h fid).mp hv] at hc
    cases hc
  | some b =>
    cases b with
    | false => rfl
    | true =>
      rw [foodsLe_findC_true h fid hv] at hc
      cases hc

/-- `FoodsLe` preserves the identifier sequence. -/
theorem foodsLe_ids {l l' : List FoodItem} (h : FoodsLe l l') :
    l'.map FoodItem.id = l.map FoodItem.id := by
  induction h with
  | nil => rfl
  | cons hfg htail ih => simp [hfg.1, ih]

/-- Marking one food item consumed is a `FoodsLe` step. -/
theorem foodsLe_markConsumed (l : List FoodItem) (tid : ℕ) :
    FoodsLe l (l.map (markConsumed tid)) := by
  induction l with
  | nil => exact List.Forall₂.nil
  | cons f l ih =>
    refine List.Forall₂.cons ⟨?_, ?_⟩ ih
    · unfold markConsumed
      split_ifs <;> rfl
    · intro hc
      unfold markConsumed
      split_ifs <;> simp [hc]

/-- After marking `tid` consumed, looking `tid` up yields `true`
(provided it was present at all). -/
theorem findC_map_markConsumed (l : List FoodItem) (tid : ℕ) (b : Bool)
    (hc : findC l tid = some b) : findC (l.map (markConsumed tid)) tid = some true := by
  induction l with
  | nil => simp [findC] at hc
  | cons f l ih =>
    by_cases hid : f.id = tid
    · simp [List.map_cons, findC, markConsumed, if_pos hid]
    · simp only [findC, if_neg hid] at hc
      simp only [List.map_cons, findC, markConsumed, if_neg hid]
      exact ih hc

/-- With pairwise-distinct identifiers, looking up a member's identifier
finds exactly that member's consumed flag. -/
theorem findC_mem_nodup {l : List FoodItem} {t : FoodItem}
    (hn : (l.map FoodItem.id).Nodup) (ht : t ∈ l) :
    findC l t.id = some t.consumed := by
  induction l with
  | nil => cases ht
  | cons f l ih =>
    rcases List.mem_cons.mp ht with rfl | ht'
    · simp [findC]
    · by_cases hid : f.id = t.id
      · exfalso
        have : t.id ∈ l.map FoodItem.id := List.mem_map_of_mem FoodItem.id ht'
        rw [List.map_cons, List.nodup_cons] at hn
        exact hn.1 (hid ▸ this)
      · simp only [findC, if_neg hid]
        rw [List.map_cons, List.nodup_cons] at hn
        exact ih hn.2 ht'

/-- The targeting fold returns one of its candidates. -/
theorem foldl_pick_mem (pos : Vec3) (fs : List FoodItem) : ∀ (f : FoodItem),
    fs.foldl (fun best g => if betterTarget pos g best then g else best) f ∈ f :: fs := by
  induction fs with
  | nil => intro f; simp
  | cons g fs ih =>
    intro f
    simp only [List.foldl_cons]
    by_cases h : betterTarget pos g f = true
    · rw [if_pos h]
      exact List.mem_cons_of_mem f (ih g)
    · rw [if_neg h]
      rcases List.mem_cons.mp (ih f) with h' | h'
      · simp [h']
      · exact List.mem_cons_of_mem f (List.mem_cons_of_mem g h')

/-- A selected target is an unconsumed member of the food list. -/
theorem selectTarget_spec (pos : Vec3) (foods : List FoodItem) (t : FoodItem)
    (h : selectTarget pos foods = some t) : t ∈ foods ∧ t.consumed = false := by
  unfold selectTarget at h
  cases hf : foods.filter (fun f => !f.consumed) with
  | nil => rw [hf] at h; cases h
  | cons f fs =>
    rw [hf, Option.some.injEq] at h
    have ht : t ∈ foods.filter (fun f => !f.consumed) := by
      rw [hf]
      exact h ▸ foldl_pick_mem pos fs f
    have hmf := List.mem_filter.mp ht
    refine ⟨hmf.1, ?_⟩
    simpa using hmf.2

/-- One player's step: food evolves monotonically, and its (at most one)
consumption event names a food that was unconsumed before the step and
is consumed after it. -/
theorem stepPlayer_foods_spec (sqrtQ : ℚ → ℚ) (angleOf : ℚ → ℚ → ℚ)
    (speed radius delta : ℚ) (foods : List FoodItem) (p : Player)
    (hn : (foods.map FoodItem.id).Nodup) :
    FoodsLe foods (stepPlayer sqrtQ angleOf speed radius delta foods p).2.1 ∧
    ∀ e ∈ (stepPlayer sqrtQ angleOf speed radius delta foods p).2.2,
      findC foods e.2 = some false ∧
      findC (stepPlayer sqrtQ angleOf speed radius delta foods p).2.1 e.2 = some true := by
  cases h : selectTarget p.position foods with
  | none =>
    simp only [stepPlayer, h]
    exact ⟨foodsLe_refl foods, by simp⟩
  | some t =>
    obtain ⟨htmem, htcons⟩ := selectTarget_spec p.position foods t h
    have hfind : findC foods t.id = some false := by
      rw [findC_mem_nodup hn htmem, htcons]
    simp only [stepPlayer, h]
    split_ifs with hcons
    · refine ⟨foodsLe_markConsumed foods t.id, ?_⟩
      intro e he
      simp only [List.mem_singleton] at he
      subst he
      exact ⟨hfind, findC_map_markConsumed foods t.id false hfind⟩
    · exact ⟨foodsLe_refl foods, by simp⟩

/-- One player's step logs at most one event, so its food identifiers
are trivially pairwise distinct. -/
theorem stepPlayer_events_nodup (sqrtQ : ℚ → ℚ) (angleOf : ℚ → ℚ → ℚ)
    (speed radius delta : ℚ) (foods : List FoodItem) (p : Player) :
    (((stepPlayer sqrtQ angleOf speed radius delta foods p).2.2).map Prod.snd).Nodup := by
  cases h : selectTarget p.position foods with
  | none => simp [stepPlayer, h]
  | some t =>
    simp only [stepPlayer, h]
    split_ifs <;> simp

/-- One whole update pass satisfies `FoodsInv`: the sequential fold
applies each consumed flag before later players read the food state, so
no food item is claimed twice within the pass. -/
theorem updateBuffetPlayers_foods_spec (sqrtQ : ℚ → ℚ) (angleOf : ℚ → ℚ → ℚ)
    (speed radius delta : ℚ) (players : List Player) (foods : List FoodItem)
    (hn : (foods.map FoodItem.id).Nodup) :
    FoodsInv foods (updateBuffetPlayers sqrtQ angleOf speed radius delta players foods) := by
  suffices h : ∀ (ps : List Player) (acc : UpdateResult), FoodsInv foods acc →
      FoodsInv foods
        (ps.foldl
          (fun acc p =>
            let r := stepPlayer sqrtQ angleOf speed radius delta acc.foodItems p
            { players := acc.players ++ [r.1]
              foodItems := r.2.1
              events := acc.events ++ r.2.2 })
          acc) by
    exact h players { players := [], foodItems := foods, events := [] }
      ⟨foodsLe_refl foods, by simp, by simp, by simp⟩
  intro ps
  induction ps with
  | nil => intro acc hacc; exact hacc
  | cons p ps ih =>
    intro acc hacc
    rw [List.foldl_cons]
    apply ih
    obtain ⟨h1, h2, h3, h4⟩ := hacc
    have hn' : ((acc.foodItems).map FoodItem.id).Nodup := by
      rw [foodsLe_ids h1]
      exact hn
    obtain ⟨s1, s2⟩ := stepPlayer_foods_spec sqrtQ angleOf speed radius delta acc.foodItems p hn'
    refine ⟨foodsLe_trans h1 s1, ?_, ?_, ?_⟩
    · rw [List.map_append]
      refine List.Nodup.append h2
        (stepPlayer_events_nodup sqrtQ angleOf speed radius delta acc.foodItems p) ?_
      intro fid hfid1 hfid2
      obtain ⟨e1, he1, rfl⟩ := List.mem_map.mp hfid1
      obtain ⟨e2, he2, heq⟩ := List.mem_map.mp hfid2
      have ht := h4 e1 he1
      have hf := (s2 e2 he2).1
      rw [heq] at hf
      rw [ht] at hf
      cases hf
    · intro e he
      rcases List.mem_append.mp he with he' | he'
      · exact h3 e he'
      · exact foodsLe_findC_false_rev h1 e.2 (s2 e he').1
    · intro e he
      rcases List.mem_append.mp he with he' | he'
      · exact foodsLe_findC_true s1 e.2 (h4 e he')
      · exact (s2 e he').2

/-- One frame callback satisfies the same contract as an update pass
(idle and early-return frames change nothing and log nothing). -/
theorem useFrameStep_foods_spec (sqrtQ : ℚ → ℚ) (angleOf : ℚ → ℚ → ℚ)
    (speed radius : ℚ) (running gameOver : Bool) (mapSize delta : ℚ) (st : SimState)
    (hn : (st.foodItems.map FoodItem.id).Nodup) :
    FoodsLe st.foodItems
      (useFrameStep sqrtQ angleOf speed radius running gameOver mapSize delta st).state.foodItems ∧
    ((((useFrameStep sqrtQ angleOf speed radius running gameOver mapSize delta st).events).map
        Prod.snd).Nodup) ∧
    (∀ e ∈ (useFrameStep sqrtQ angleOf speed radius running gameOver mapSize delta st).events,
      findC st.foodItems e.2 = some false) ∧
    (∀ e ∈ (useFrameStep sqrtQ angleOf speed radius running gameOver mapSize delta st).events,
      findC (useFrameStep sqrtQ angleOf speed radius running gameOver mapSize delta
        st).state.foodItems e.2 = some true) := by
  unfold useFrameStep
  split_ifs with he hrun
  · exact ⟨foodsLe_refl _, by simp, by simp, by simp⟩
  · obtain ⟨h1, h2, h3, h4⟩ :=
      updateBuffetPlayers_foods_spec sqrtQ angleOf speed radius delta st.players st.foodItems hn
    exact ⟨h1, h2, h3, h4⟩
  · exact ⟨foodsLe_refl _, by simp, by simp, by simp⟩

/-- A whole run satisfies the contract: food evolves monotonically from
the starting state, the concatenated event log names pairwise-distinct
food items, each unconsumed at the run's start and consumed at its
end. -/
theorem runFrames_foods_spec (sqrtQ : ℚ → ℚ) (angleOf : ℚ → ℚ → ℚ)
    (speed radius mapSize : ℚ) (ticks : List TickInput) : ∀ (st : SimState),
    (st.foodItems.map FoodItem.id).Nodup →
    FoodsLe st.foodItems (runFrames sqrtQ angleOf speed radius mapSize st ticks).1.foodItems ∧
    (((runFrames sqrtQ angleOf speed radius mapSize st ticks).2.map Prod.snd).Nodup) ∧
    (∀ e ∈ (runFrames sqrtQ angleOf speed radius mapSize st ticks).2,
      findC st.foodItems e.2 = some false) ∧
    (∀ e ∈ (runFrames sqrtQ angleOf speed radius mapSize st ticks).2,
      findC (runFrames sqrtQ angleOf speed radius mapSize st ticks).1.foodItems e.2
        = some true) := by
  induction ticks with
  | nil =>
    intro st hn
    exact ⟨foodsLe_refl _, by simp [runFrames], by simp [runFrames], by simp [runFrames]⟩
  | cons t ts ih =>
    intro st hn
    obtain ⟨f1, f2, f3, f4⟩ :=
      useFrameStep_foods_spec sqrtQ angleOf speed radius t.running t.gameOver mapSize t.delta st hn
    have hn2 : (((useFrameStep sqrtQ angleOf speed radius t.running t.gameOver mapSize t.delta
        st).state.foodItems).map FoodItem.id).Nodup := by
      rw [foodsLe_ids f1]
      exact hn
    obtain ⟨r1, r2, r3, r4⟩ :=
      ih (useFrameStep sqrtQ angleOf speed radius t.running t.gameOver mapSize t.delta st).state hn2
    refine ⟨?_, ?_, ?_, ?_⟩ <;> simp only [runFrames]
    · exact foodsLe_trans f1 r1
    · rw [List.map_append]
      refine List.Nodup.append f2 r2 ?_
      intro fid hfid1 hfid2
      obtain ⟨e1, he1, rfl⟩ := List.mem_map.mp hfid1
      obtain ⟨e2, he2, heq⟩ := List.mem_map.mp hfid2
      have ht := f4 e1 he1
      have hf := r3 e2 he2
      rw [heq, ht] at hf
      cases hf
    · intro e he
      rcases List.mem_append.mp he with he' | he'
      · exact f3 e he'
      · exact foodsLe_findC_false_rev f1 e.2 (r3 e he')
    · intro e he
      rcases List.mem_append.mp he with he' | he'
      · exact foodsLe_findC_true r1 e.2 (f4 e he')
      · exact r4 e he'

/-- Running a concatenation of tick lists is running them in sequence. -/
theorem runFrames_fst_append (sqrtQ : ℚ → ℚ) (angleOf : ℚ → ℚ → ℚ)
    (speed radius mapSize : ℚ) (l1 l2 : List TickInput) : ∀ (st : SimState),
    (runFrames sqrtQ angleOf speed radius mapSize st (l1 ++ l2)).1
      = (runFrames sqrtQ angleOf speed radius mapSize
          (runFrames sqrtQ angleOf speed radius mapSize st l1).1 l2).1 := by
  induction l1 with
  | nil => intro st; simp [runFrames]
  | cons t ts ih =>
    intro st
    simp only [List.cons_append, runFrames]
    exact ih _

/-- C8 confirmed: across an entire run (any tick sequence, flags and
deltas) from a world whose food identifiers are pairwise distinct (as at
construction, where they are `0, 1, 2, …`), the consumption-event log
credits each food item to at most one `(player, food)` pair — no food is
ever consumed by two players or consumed twice — and between any tick
and the next the food list evolves along `FoodsLe`, so a `consumed` flag
never reverts from `true` to `false` and hence flips `false → true` at
most once in the whole run. -/
theorem c8_consumption_single_claim (sqrtQ : ℚ → ℚ) (angleOf : ℚ → ℚ → ℚ)
    (speed radius mapSize : ℚ) (st : SimState) (ticks : List TickInput)
    (hn : (st.foodItems.map FoodItem.id).Nodup) :
    (((runFrames sqrtQ angleOf speed radius mapSize st ticks).2.map Prod.snd).Nodup) ∧
    (∀ n : ℕ,
      FoodsLe ((runFrames sqrtQ angleOf speed radius mapSize st (ticks.take n)).1.foodItems)
        ((runFrames sqrtQ angleOf speed radius mapSize st (ticks.take (n + 1))).1.foodItems)) := by
  refine ⟨(runFrames_foods_spec sqrtQ angleOf speed radius mapSize ticks st hn).2.1, ?_⟩
  intro n
  rw [List.take_succ]
  cases hnth : ticks[n]? with
  | none => simp [hnth, foodsLe_refl]
  | some t =>
    simp only [Option.toList_some]
    rw [runFrames_fst_append]
    have hmid := runFrames_foods_spec sqrtQ angleOf speed radius mapSize (ticks.take n) st hn
    have hnmid : ((((runFrames sqrtQ angleOf speed radius mapSize st
        (ticks.take n)).1.foodItems)).map FoodItem.id).Nodup := by
      rw [foodsLe_ids hmid.1]
      exact hn
    have hstep := useFrameStep_foods_spec sqrtQ angleOf speed radius t.running t.gameOver mapSize
      t.delta (runFrames sqrtQ angleOf speed radius mapSize st (ticks.take n)).1 hnmid
    simpa [runFrames] using hstep.1

/-- C8 witness: the single-claim theorem applied to a concrete one-tick
run on a world with one player and one food item. -/
theorem c8_witness :
    ((runFrames sqrtOracle0 angleOracle0 1 1 8 touchState
        [⟨true, false, 1/60⟩]).2.map Prod.snd).Nodup :=
  (c8_consumption_single_claim sqrtOracle0 angleOracle0 1 1 8 touchState
    [⟨true, false, 1/60⟩] (by simp [touchState, originFood])).1

end ForagingTheory
